import Mathlib

/-!
Verification development for the joshbot message-bus and agent-orchestration
engine.  The Python source is shallowly embedded: pure fragments become Lean
functions, stateful operations become explicit state-passing functions, the
LLM provider and the croniter library are oracles supplied as parameters, and
exceptions are modelled with Option / Except.  String manipulation mirrors the
CPython semantics of the corresponding str methods, implemented over List Char
so that every definition is executable.
-/

namespace Joshbot

/-! ## String helpers mirroring Python str methods -/

/-- Single-quote character, used to build user-facing strings. -/
def squote : String := String.singleton (Char.ofNat 39)

/-- Lowercase an ASCII letter, as Python str.lower does on ASCII input. -/
def lowerChar (c : Char) : Char :=
  if 65 ≤ c.toNat ∧ c.toNat ≤ 90 then Char.ofNat (c.toNat + 32) else c

/-- Whitespace characters stripped by Python str.strip (ASCII range). -/
def isPySpace (c : Char) : Bool :=
  c = ' ' ∨ c = '\t' ∨ c = '\n' ∨ c = '\r' ∨ c = Char.ofNat 11 ∨ c = Char.ofNat 12

/-- Python str.strip: remove leading and trailing whitespace. -/
def pyStrip (l : List Char) : List Char :=
  ((l.dropWhile isPySpace).reverse.dropWhile isPySpace).reverse

/-- Python str.lower over a character list. -/
def pyLower (l : List Char) : List Char := l.map lowerChar

/-- Python substring containment (the `in` operator on str). -/
def containsSub (needle : List Char) : List Char → Bool
  | [] => needle.isEmpty
  | c :: rest => needle.isPrefixOf (c :: rest) || containsSub needle rest

/-- Index of the first occurrence of a substring, if any. -/
def findSub (needle : List Char) : List Char → Option Nat
  | [] => if needle.isEmpty then some 0 else none
  | c :: rest =>
    if needle.isPrefixOf (c :: rest) then some 0
    else (findSub needle rest).map (· + 1)

/-- Fueled worker for non-overlapping leftmost substring replacement. -/
def replaceSubFuel (needle repl : List Char) : Nat → List Char → List Char
  | 0, rest => rest
  | _ + 1, [] => []
  | f + 1, c :: rest =>
    if !needle.isEmpty && needle.isPrefixOf (c :: rest) then
      repl ++ replaceSubFuel needle repl f ((c :: rest).drop needle.length)
    else
      c :: replaceSubFuel needle repl f rest

/-- Python str.replace: replace every non-overlapping occurrence. -/
def replaceSub (needle repl hay : List Char) : List Char :=
  replaceSubFuel needle repl hay.length hay

/-- Python str.strip on a String. -/
def strStrip (s : String) : String := ⟨pyStrip s.data⟩

/-- Python str.lower on a String. -/
def strLower (s : String) : String := ⟨pyLower s.data⟩

/-- Python substring containment on Strings. -/
def strContains (hay pat : String) : Bool := containsSub pat.data hay.data

/-- Python str.replace on Strings. -/
def strReplace (s pat repl : String) : String := ⟨replaceSub pat.data repl.data s.data⟩

/-- Python str.startswith for a one-character prefix. -/
def startsWithSlash (s : String) : Bool :=
  match s.data with
  | c :: _ => c = '/'
  | [] => false

/-- First code points of the decades of Unicode category Nd (Unicode
14.0.0): every decimal-digit character lies in exactly one run start..start+9
and its decimal value is its offset in the run.  This is the character class
CPython's str-pattern backslash-d matches and the digit set int() accepts. -/
def ndRangeStarts : List Nat :=
  [48, 1632, 1776, 1984, 2406, 2534, 2662, 2790, 2918, 3046, 3174, 3302,
   3430, 3558, 3664, 3792, 3872, 4160, 4240, 6112, 6160, 6470, 6608, 6784,
   6800, 6992, 7088, 7232, 7248, 42528, 43216, 43264, 43472, 43504, 43600,
   44016, 65296, 66720, 68912, 69734, 69872, 69942, 70096, 70384, 70736,
   70864, 71248, 71360, 71472, 71904, 72016, 72784, 73040, 73120, 92768,
   92864, 93008, 120782, 120792, 120802, 120812, 120822, 123200, 123632,
   125264, 130032]

/-- Membership in Unicode category Nd, the class matched by backslash-d in a
CPython str pattern. -/
def isNdDigit (c : Char) : Bool :=
  ndRangeStarts.any (fun s => s ≤ c.toNat && c.toNat < s + 10)

/-- Decimal value of an Nd digit character. -/
def ndDigitVal (c : Char) : Nat :=
  match ndRangeStarts.find? (fun s => s ≤ c.toNat && c.toNat < s + 10) with
  | some s => c.toNat - s
  | none => 0

/-- Decimal value of a string of Unicode decimal digits, as Python int() on
a backslash-d-only string (int() accepts exactly the Nd digits, each
contributing its decimal value). -/
def natOfDigits (ds : List Char) : Nat :=
  ds.foldl (fun acc c => acc * 10 + ndDigitVal c) 0

/-! ## Bus (src/joshbot/bus/queue.py)

Each queue of the MessageBus is a bounded FIFO; asyncio.Queue.full() holds
exactly when the queue length has reached the maxsize. -/

/-- Message received from a chat channel (src/joshbot/bus/events.py). -/
structure InboundMessage where
  channel : String
  channelId : String
  senderId : String
  senderName : String
  content : String
deriving DecidableEq, Repr

/-- Message to send to a chat channel (src/joshbot/bus/events.py). -/
structure OutboundMessage where
  channel : String
  channelId : String
  content : String
deriving DecidableEq, Repr

/-- MessageBus.MAX_QUEUE_SIZE. -/
def MAX_QUEUE_SIZE : Nat := 1000

/-- State of the two bounded queues of the MessageBus. -/
structure MessageBus where
  inbound : List InboundMessage
  outbound : List OutboundMessage
deriving DecidableEq, Repr

/-- MessageBus.publish_inbound: drop and report False when the queue is full,
otherwise enqueue and report True. -/
def publishInbound (bus : MessageBus) (m : InboundMessage) : Bool × MessageBus :=
  if MAX_QUEUE_SIZE ≤ bus.inbound.length then (false, bus)
  else (true, { bus with inbound := bus.inbound ++ [m] })

/-- MessageBus.publish_outbound: drop and report False when the queue is full,
otherwise enqueue and report True. -/
def publishOutbound (bus : MessageBus) (m : OutboundMessage) : Bool × MessageBus :=
  if MAX_QUEUE_SIZE ≤ bus.outbound.length then (false, bus)
  else (true, { bus with outbound := bus.outbound ++ [m] })

/-! ## Session store (src/joshbot/session/manager.py)

The JSONL persistence is modelled at the record level: a file is the list of
decoded JSON records, one per line, json.dumps/json.loads being mutually
inverse on the JSON-safe dicts the manager writes.  A record carries the
distinguished "_type" tag used by the loader plus the metadata fields it
reads; the remaining payload of a message dict is abstracted as one field. -/

/-- Decoded JSONL record: the optional "_type" tag and "created_at" field the
loader inspects, and the rest of the dict abstracted as an opaque body. -/
structure Rec where
  tag : Option String
  createdAt : Option Nat
  body : String
deriving DecidableEq, Repr

/-- A conversation session (class Session). -/
structure Session where
  key : String
  messages : List Rec
  createdAt : Nat
  updatedAt : Nat
deriving DecidableEq, Repr

/-- SessionManager._session_path key sanitisation: both ":" and "/" become
"_"; the two patterns are single characters, so the successive replaces act
as one character map. -/
def sanitizeKey (k : String) : String :=
  ⟨k.data.map (fun c => if c = ':' ∨ c = '/' then '_' else c)⟩

/-- SessionManager.save message cap. -/
def MAX_MESSAGES : Nat := 1000

/-- Metadata header record written as the first line of the session file. -/
def metadataRec (s : Session) : Rec :=
  { tag := some "metadata", createdAt := some s.createdAt, body := s.key }

/-- SessionManager.save: trim to the newest MAX_MESSAGES messages (mutating
the session), then write the metadata header followed by one record per
message.  Returns the mutated session and the written file. -/
def saveSession (s : Session) (now : Nat) : Session × List Rec :=
  let msgs :=
    if MAX_MESSAGES < s.messages.length then
      s.messages.drop (s.messages.length - MAX_MESSAGES)
    else s.messages
  let s' := { s with messages := msgs, updatedAt := now }
  (s', metadataRec s' :: msgs)

/-- SessionManager._load_session: the first record is consumed as metadata
when it carries the "metadata" tag, every other record is a message. -/
def loadSession (key : String) (file : List Rec) (now : Nat) : Session :=
  match file with
  | [] => { key := key, messages := [], createdAt := now, updatedAt := now }
  | r :: rest =>
    if r.tag = some "metadata" then
      { key := key, messages := rest, createdAt := r.createdAt.getD now, updatedAt := now }
    else
      { key := key, messages := r :: rest, createdAt := now, updatedAt := now }

/-- In-memory cache plus persisted files of the SessionManager, files keyed
by the sanitised key. -/
structure ManagerState where
  cache : List (String × Session)
  disk : List (String × List Rec)
deriving Repr

/-- SessionManager.get_or_create: cache hit, else load the persisted file,
else a fresh empty session; the result is cached. -/
def getOrCreate (st : ManagerState) (key : String) (now : Nat) : Session × ManagerState :=
  match st.cache.lookup key with
  | some s => (s, st)
  | none =>
    match st.disk.lookup (sanitizeKey key) with
    | some file =>
      let s := loadSession key file now
      (s, { st with cache := (key, s) :: st.cache })
    | none =>
      let s : Session := { key := key, messages := [], createdAt := now, updatedAt := now }
      (s, { st with cache := (key, s) :: st.cache })

/-- SessionManager.save at the manager level: the session object held in the
cache is the one being saved, so the cache entry reflects the trim, and the
persisted file for the sanitised key is replaced. -/
def saveToManager (st : ManagerState) (s : Session) (now : Nat) : Session × ManagerState :=
  let r := saveSession s now
  (r.1,
   { cache := st.cache.map (fun p => if p.1 = s.key then (p.1, r.1) else p),
     disk := (sanitizeKey s.key, r.2) :: st.disk })

/-- Dropping a cache entry (for instance across a restart) without touching
the persisted file. -/
def dropCacheEntry (st : ManagerState) (key : String) : ManagerState :=
  { st with cache := st.cache.filter (fun p => !(p.1 == key)) }

/-! ## Tool registry (src/joshbot/tools/registry.py, src/joshbot/tools/base.py)

A tool is modelled by its name, the required and declared property names of
its JSON schema, and its execute behaviour: Except carries an internal
failure as the exception type name plus message, mirroring how the registry
renders a caught exception. -/

/-- A registered tool: schema data plus execute behaviour. -/
structure ToolModel where
  name : String
  required : List String
  properties : List String
  run : List (String × String) → Except (String × String) String

/-- Registry lookup (self._tools.get(name)); the registry dict is modelled as
its insertion-ordered item list, names being unique. -/
def findTool (tools : List ToolModel) (name : String) : Option ToolModel :=
  tools.find? (fun t => t.name == name)

/-- The comma-separated enumeration of registered tool names. -/
def availableNames (tools : List ToolModel) : String :=
  String.intercalate ", " (tools.map (fun t => t.name))

/-- Error text returned for an unknown tool name. -/
def unknownToolText (name : String) (tools : List ToolModel) : String :=
  "Error: Unknown tool " ++ squote ++ name ++ squote ++ ". Available tools: " ++
    availableNames tools

/-- Uniform error text produced when a tool raises. -/
def toolErrorText (name kind msg : String) : String :=
  "Tool " ++ squote ++ name ++ squote ++ " error: " ++ kind ++ ": " ++ msg

/-- Tool.validate_params: raise ValueError at the first missing required
field, otherwise keep only arguments whose key is a declared property. -/
def validateParams (t : ToolModel) (args : List (String × String)) :
    Except String (List (String × String)) :=
  match t.required.find? (fun f => !(args.any (fun p => p.1 == f))) with
  | some f => Except.error ("Missing required parameter: " ++ f)
  | none => Except.ok (args.filter (fun p => t.properties.contains p.1))

/-- ToolRegistry.execute: unknown names yield a descriptive error text, a
validation failure or internal tool failure yields the uniform error text,
success yields the tool output; no path raises. -/
def registryExecute (tools : List ToolModel) (name : String)
    (args : List (String × String)) : String :=
  match findTool tools name with
  | none => unknownToolText name tools
  | some t =>
    match validateParams t args with
    | Except.error m => toolErrorText name "ValueError" m
    | Except.ok cleaned =>
      match t.run cleaned with
      | Except.error km => toolErrorText name km.1 km.2
      | Except.ok r => r

/-! ## Delay parsing and the cron service (src/joshbot/cron/service.py)

DELAY_PATTERN is the regular expression `(backslash-d plus)([mhd])` anchored
at both ends and applied with re.match.  In CPython the end anchor also
matches just before a single newline that terminates the string, and the
str-pattern digit class is Unicode category Nd (so e.g. Arabic-Indic digits
match and int() converts them); the embedding reproduces both. -/

/-- End-anchor adjustment of the CPython regex: a single trailing newline is
ignored by the match. -/
def stripTrailingNewline (s : List Char) : List Char :=
  if s.getLast? = some '\n' then s.dropLast else s

/-- Success of re.match(DELAY_PATTERN, s), with the matched value and unit. -/
def delayMatch (s : List Char) : Option (Nat × Char) :=
  let core := stripTrailingNewline s
  match core.getLast? with
  | none => none
  | some u =>
    if (u = 'm' ∨ u = 'h' ∨ u = 'd') ∧ core.dropLast ≠ [] ∧ core.dropLast.all isNdDigit then
      some (natOfDigits core.dropLast, u)
    else none

/-- Modelled from the spec: the one-shot delay grammar, an integer literal
followed by one unit letter, with nothing else before or after. -/
def specDelayMatch (s : List Char) : Bool :=
  match s.getLast? with
  | none => false
  | some u =>
    (u = 'm' ∨ u = 'h' ∨ u = 'd') ∧ s.dropLast ≠ [] ∧ s.dropLast.all Char.isDigit

/-- The exact language DELAY_PATTERN accepts before the end-anchor newline
adjustment: one or more Unicode decimal digits followed by one unit
letter. -/
def ndDelayGrammar (s : List Char) : Bool :=
  match s.getLast? with
  | none => false
  | some u =>
    (u = 'm' ∨ u = 'h' ∨ u = 'd') ∧ s.dropLast ≠ [] ∧ s.dropLast.all isNdDigit

/-- Seconds per unit (the multipliers dict). -/
def multiplier : Char → Nat
  | 'm' => 60
  | 'h' => 3600
  | 'd' => 86400
  | _ => 0

/-- CronService._parse_delay: seconds for a delay string, ValueError (none)
when the pattern does not match. -/
def parseDelay (s : List Char) : Option Nat :=
  match delayMatch s with
  | some vu => some (vu.1 * multiplier vu.2)
  | none => none

/-- A scheduled job (src/joshbot/cron/types.py). -/
structure CronJob where
  id : String
  name : String
  schedule : String
  message : String
  channel : String
  channelId : String
  createdAt : String
  nextRun : String
  recurring : Bool
deriving DecidableEq, Repr

/-- Timer task attached to a job: a one-shot sleeper or a recurring cron
loop. -/
inductive TimerKind where
  | oneShot (delaySecs : Nat)
  | cronLoop
deriving DecidableEq, Repr

/-- CronService state: the in-memory job map (insertion-ordered), the
persisted jobs.json content, the live timer tasks, and the running flag. -/
structure CronState where
  jobs : List (String × CronJob)
  jobsFile : Option (List CronJob)
  timers : List (String × TimerKind)
  running : Bool
deriving Repr

/-- CronService._save_jobs: rewrite the jobs file from the job map values. -/
def saveJobs (jobs : List (String × CronJob)) : Option (List CronJob) :=
  some (jobs.map (fun p => p.2))

/-- CronService._schedule_job: nothing while stopped; otherwise a one-shot
timer for a delay schedule and a cron loop task for anything else. -/
def scheduleJob (st : CronState) (job : CronJob) : CronState :=
  if !st.running then st
  else
    match delayMatch job.schedule.data with
    | some vu => { st with timers := st.timers ++ [(job.id, TimerKind.oneShot (vu.1 * multiplier vu.2))] }
    | none => { st with timers := st.timers ++ [(job.id, TimerKind.cronLoop)] }

/-- CronService.create_job.  The fresh uuid, the current time rendering and
the croniter next-occurrence computation are oracles: cronNext is none when
croniter raises on the schedule, in which case next_run becomes the literal
text "invalid schedule" and the job is still stored, persisted and
scheduled. -/
def createJob (st : CronState) (jobId name schedule message channel channelId : String)
    (createdAtIso : String) (delayNextRun : Nat → String) (cronNext : Option String) :
    CronJob × CronState :=
  let matched := delayMatch schedule.data
  let nextRun :=
    match matched with
    | some vu => delayNextRun (vu.1 * multiplier vu.2)
    | none =>
      match cronNext with
      | some t => t
      | none => "invalid schedule"
  let job : CronJob :=
    { id := jobId, name := name, schedule := schedule, message := message,
      channel := channel, channelId := channelId, createdAt := createdAtIso,
      nextRun := nextRun, recurring := matched.isNone }
  let jobs := st.jobs ++ [(jobId, job)]
  let st := { st with jobs := jobs, jobsFile := saveJobs jobs }
  (job, scheduleJob st job)

/-! ## Chat messages and the agent loop (src/joshbot/agent/loop.py)

A chat message is the dict shape built by the loop: a role, an optional
content string (None is used in assistant tool-call messages with empty
content), a tool-call list, and the tool_call_id / name fields of tool result
messages.  The provider is an oracle indexed by the chat-call number of the
turn; the registry dispatch seen by the loop is an oracle from the requested
call to its text result. -/

/-- A tool call requested by the LLM (providers/base.py ToolCallRequest);
the argument dict is abstracted as its serialised form. -/
structure ToolCallRequest where
  id : String
  name : String
  arguments : String
deriving DecidableEq, Repr

/-- A provider response (providers/base.py LLMResponse); has_tool_calls is
toolCalls being nonempty. -/
structure LLMResponse where
  content : String
  toolCalls : List ToolCallRequest
deriving DecidableEq, Repr

/-- The serialised tool-call entry placed in an assistant message. -/
structure ToolCallData where
  id : String
  name : String
  arguments : String
deriving DecidableEq, Repr

/-- One entry of a model-facing or persisted message list. -/
structure ChatMsg where
  role : String
  content : Option String
  toolCalls : List ToolCallData
  toolCallId : String
  name : String
deriving DecidableEq, Repr

/-- A plain system message. -/
def systemMsg (c : String) : ChatMsg := ⟨"system", some c, [], "", ""⟩

/-- A plain user message. -/
def userMsg (c : String) : ChatMsg := ⟨"user", some c, [], "", ""⟩

/-- The assistant message recording the final plain-text answer. -/
def assistantFinalMsg (c : String) : ChatMsg := ⟨"assistant", some c, [], "", ""⟩

/-- The tool-call entry for a requested call (json.dumps of the arguments is
the identity on the abstracted argument string). -/
def toolCallData (tc : ToolCallRequest) : ToolCallData := ⟨tc.id, tc.name, tc.arguments⟩

/-- The assistant message recording requested tool calls; empty content is
stored as None. -/
def assistantToolMsg (content : String) (tcs : List ToolCallData) : ChatMsg :=
  ⟨"assistant", if content = "" then none else some content, tcs, "", ""⟩

/-- context.format_tool_result: the tool result message. -/
def toolResultMsg (tcId tcName result : String) : ChatMsg :=
  ⟨"tool", some result, [], tcId, tcName⟩

/-- Content of the synthetic reflection prompt. -/
def reflectText : String :=
  "[System: Reflect on the tool results and decide your next action. " ++
    "If you have enough information to respond to the user, do so. " ++
    "Otherwise, use more tools.]"

/-- The reflection prompt appended to the model-facing list only. -/
def reflectMsg : ChatMsg := userMsg reflectText

/-- The fixed fallback text returned when the iteration cap is reached. -/
def stillWorkingText : String :=
  "I" ++ squote ++ "ve been working on this for a while. Here" ++ squote ++
    "s what I found so far - let me know if you" ++ squote ++ "d like me to continue."

/-- Outcome of AgentLoop._react_loop: the final model-facing list, the final
session message list, the returned text, and the number of chat calls made. -/
structure ReactResult where
  messages : List ChatMsg
  session : List ChatMsg
  result : String
  calls : Nat
deriving DecidableEq, Repr

/-- Worker for AgentLoop._react_loop, structurally recursive on the remaining
iterations; iteration is the absolute loop index, so the provider argument is
the index of the chat call being made. -/
def reactAux (provider : Nat → LLMResponse) (execF : ToolCallRequest → String)
    (maxIterations : Nat) : Nat → Nat → List ChatMsg → List ChatMsg → ReactResult
  | 0, _, messages, session => ⟨messages, session, stillWorkingText, 0⟩
  | fuel + 1, iteration, messages, session =>
    let response := provider iteration
    if response.toolCalls.isEmpty then
      ⟨messages, session ++ [assistantFinalMsg response.content], response.content, 1⟩
    else
      let tcs := response.toolCalls.map toolCallData
      let amsg := assistantToolMsg response.content tcs
      let toolMsgs := response.toolCalls.map
        (fun tc => toolResultMsg tc.id tc.name (execF tc))
      let reflects := if iteration < maxIterations - 1 then [reflectMsg] else []
      let r := reactAux provider execF maxIterations fuel (iteration + 1)
        (messages ++ [amsg] ++ toolMsgs ++ reflects)
        (session ++ [amsg] ++ toolMsgs)
      ⟨r.messages, r.session, r.result, r.calls + 1⟩

/-- AgentLoop._react_loop: up to max_tool_iterations rounds starting from the
model-facing list and the session message list. -/
def reactLoop (provider : Nat → LLMResponse) (execF : ToolCallRequest → String)
    (maxIterations : Nat) (messages session : List ChatMsg) : ReactResult :=
  reactAux provider execF maxIterations maxIterations 0 messages session

/-! ## Subagent runner (src/joshbot/agent/subagent.py) -/

/-- The function block of an OpenAI-style tool schema. -/
structure FunctionDecl where
  name : String
deriving DecidableEq, Repr

/-- A tool schema as exported by ToolRegistry.get_schemas. -/
structure ToolSchema where
  function : FunctionDecl
deriving DecidableEq, Repr

/-- Capability names stripped from subagents. -/
def restrictedNames : List String := ["message", "spawn"]

/-- Trace of one SubagentRunner.run call: the returned text, the tool list
passed to the model on every chat call (None when the restricted list is
empty), and the names of the tool calls actually executed. -/
structure SubagentTrace where
  result : String
  chats : List (Option (List ToolSchema))
  executed : List String
deriving Repr

/-- Worker for SubagentRunner.run.  The provider oracle yields an exception
(Except.error, caught and rendered) or a response; requested calls named
message or spawn are skipped both when building the assistant record and when
executing. -/
def subagentStep (provider : Nat → Except String LLMResponse)
    (execF : ToolCallRequest → String) (restricted : List ToolSchema) :
    Nat → Nat → List ChatMsg → SubagentTrace
  | 0, _, _ =>
    ⟨"Subagent reached maximum iterations. Partial results may be available.", [], []⟩
  | fuel + 1, iteration, messages =>
    let passed := if restricted.isEmpty then none else some restricted
    match provider iteration with
    | Except.error e => ⟨"Subagent error: " ++ e, [passed], []⟩
    | Except.ok response =>
      if response.toolCalls.isEmpty then
        ⟨if response.content = "" then "(no output)" else response.content, [passed], []⟩
      else
        let kept := response.toolCalls.filter
          (fun tc => !(restrictedNames.contains tc.name))
        if kept.isEmpty then
          ⟨if response.content = "" then "(no output)" else response.content, [passed], []⟩
        else
          let amsg := assistantToolMsg response.content (kept.map toolCallData)
          let toolMsgs := kept.map (fun tc => toolResultMsg tc.id tc.name (execF tc))
          let r := subagentStep provider execF restricted fuel (iteration + 1)
            (messages ++ [amsg] ++ toolMsgs)
          ⟨r.result, passed :: r.chats, kept.map (fun tc => tc.name) ++ r.executed⟩

/-- The fixed subagent system prompt. -/
def subagentSystemPrompt : String :=
  "You are a background task runner for joshbot. " ++
    "Complete the assigned task using available tools. " ++
    "Be thorough but efficient. When done, provide a clear summary of results."

/-- SubagentRunner.run: filter the messaging and spawning tools out of the
schema list, then run the restricted loop on the fixed two-message start. -/
def subagentRun (provider : Nat → Except String LLMResponse)
    (execF : ToolCallRequest → String) (allSchemas : List ToolSchema)
    (task context : String) (maxIterations : Nat) : SubagentTrace :=
  let restricted := allSchemas.filter
    (fun s => !(restrictedNames.contains s.function.name))
  let userContent := "Task: " ++ task ++
    (if context = "" then "" else "\n\nAdditional context: " ++ context)
  subagentStep provider execF restricted maxIterations 0
    [systemMsg subagentSystemPrompt, userMsg userContent]

/-! ## Memory consolidation (src/joshbot/agent/loop.py _consolidate_memory)

Every operation of the try block that can raise is modelled separately: the
provider call is an oracle (none when the chat call raises), and the three
file operations executed in the marker branch carry one success flag each —
the MEMORY.md existence check and read, the MEMORY.md mkdir and write
(performed only for a nonempty memory section, modelled all-or-nothing),
and the HISTORY.md append (performed only for a nonempty history section).
A raising operation aborts the rest of the block via the except handler, so
effects performed before it persist and the session stays untrimmed; when
the model output lacks a marker no file operation is attempted, and only
string operations, which cannot raise, precede the trim.  The long-term
memory text and the event log entries are threaded as explicit state. -/

/-- The memory-update section marker. -/
def memoryMarker : String := "---MEMORY_UPDATE---"

/-- The history-entry section marker. -/
def historyMarker : String := "---HISTORY_ENTRY---"

/-- Both markers present in the model output. -/
def bothMarkers (content : String) : Bool :=
  strContains content memoryMarker && strContains content historyMarker

/-- parts[0] of content.split(history marker): the text before its first
occurrence (the whole string when absent). -/
def beforeHistoryMarker (content : String) : String :=
  match findSub historyMarker.data content.data with
  | some i => ⟨content.data.take i⟩
  | none => content

/-- parts[1] of content.split(history marker), stripped: the text between
the first and second occurrences. -/
def historyEntryOf (content : String) : String :=
  match findSub historyMarker.data content.data with
  | none => ""
  | some i =>
    let rest := content.data.drop (i + historyMarker.data.length)
    let stop := (findSub historyMarker.data rest).getD rest.length
    strStrip ⟨rest.take stop⟩

/-- The memory-update section: parts[0] with the memory marker removed,
stripped. -/
def memoryUpdateOf (content : String) : String :=
  strStrip (strReplace (beforeHistoryMarker content) memoryMarker "")

/-- AgentLoop._consolidate_memory: cut the oldest window // 2 messages,
render them, and call the model; when the output carries both markers,
perform the MEMORY.md read (readOk), the MEMORY.md write for a nonempty
memory section (writeOk) and the HISTORY.md append for a nonempty history
section (histOk), a failing operation aborting everything after it; the
trim, reached only when nothing raised, follows, and happens directly when
a marker is missing.  Returns the session messages, the long-term memory
text and the event log entries. -/
def consolidateMemory (window : Nat) (sessionMsgs : List ChatMsg)
    (modelOutput : Option String) (readOk writeOk histOk : Bool)
    (timestamp : String) (memory : String) (eventLog : List String) :
    List ChatMsg × String × List String :=
  let cutoff := window / 2
  let old := sessionMsgs.take cutoff
  if old.isEmpty then (sessionMsgs, memory, eventLog)
  else
    match modelOutput with
    | none => (sessionMsgs, memory, eventLog)
    | some content =>
      if bothMarkers content then
        let memoryUpdate := memoryUpdateOf content
        let historyEntry := historyEntryOf content
        if readOk = false then (sessionMsgs, memory, eventLog)
        else if memoryUpdate ≠ "" ∧ writeOk = false then (sessionMsgs, memory, eventLog)
        else
          let memory2 :=
            if memoryUpdate = "" then memory
            else if memory = "" then memoryUpdate
            else strStrip (memory ++ "\n\n" ++ memoryUpdate)
          if historyEntry ≠ "" ∧ histOk = false then (sessionMsgs, memory2, eventLog)
          else
            let log2 :=
              if historyEntry = "" then eventLog
              else eventLog ++ ["\n" ++ timestamp ++ " " ++ historyEntry ++ "\n"]
            (sessionMsgs.drop cutoff, memory2, log2)
      else (sessionMsgs.drop cutoff, memory, eventLog)

/-! ## Command handling (src/joshbot/agent/loop.py _handle_command and the
dispatch at the top of _process_message) -/

/-- Canned response to /start. -/
def startResponse : String :=
  "Hello! I" ++ squote ++ "m joshbot, your personal AI assistant. How can I help you today?"

/-- Canned response to /new. -/
def newResponse : String :=
  "Started a new conversation. Previous context has been saved to memory."

/-- Canned response to /help. -/
def helpResponse : String :=
  "Available commands:\n/start - Start a conversation\n/new - Start fresh (saves memory first)\n" ++
    "/help - Show this help\n/status - Show system status\n\nJust type normally to chat with me!"

/-- Canned response to /status, built from the configured model name, the
registered tool count, the session length and the memory window. -/
def statusResponse (model : String) (toolCount msgCount memoryWindow : Nat) : String :=
  "Status:\n  Model: " ++ model ++ "\n  Tools: " ++ toString toolCount ++
    " registered\n  Session messages: " ++ toString msgCount ++
    "\n  Memory window: " ++ toString memoryWindow ++ "\n"

/-- The command token: the message content stripped and lowercased. -/
def commandToken (content : String) : List Char := pyLower (pyStrip content.data)

/-- The four recognised command tokens. -/
def knownCommands : List (List Char) :=
  ["/start".data, "/new".data, "/help".data, "/status".data]

/-- AgentLoop._handle_command: the canned response for a recognised command,
none otherwise (the caller then processes the message normally). -/
def handleCommand (content : String) (model : String)
    (toolCount msgCount memoryWindow : Nat) : Option String :=
  let cmd := commandToken content
  if cmd = "/start".data then some startResponse
  else if cmd = "/new".data then some newResponse
  else if cmd = "/help".data then some helpResponse
  else if cmd = "/status".data then
    some (statusResponse model toolCount msgCount memoryWindow)
  else none

/-- Result of the _process_message dispatch: a canned command response sent
without touching the model, or normal processing with the session after the
user message is appended and the model-facing list handed to the ReAct
loop. -/
inductive ProcessOutcome where
  | canned (response : String)
  | normal (sessionAfter : List ChatMsg) (modelFacing : List ChatMsg)
deriving DecidableEq, Repr

/-- The non-command path of _process_message (attachment-free message):
append the user message to the session and prepend the system prompt to form
the model-facing list. -/
def normalProcessing (content sysPrompt : String) (sessionMsgs : List ChatMsg) :
    ProcessOutcome :=
  let sessionAfter := sessionMsgs ++ [userMsg content]
  ProcessOutcome.normal sessionAfter (systemMsg sysPrompt :: sessionAfter)

/-- The dispatch at the top of _process_message: contents starting with "/"
are offered to _handle_command, and fall through to normal processing when
it returns none; other contents are processed normally at once. -/
def processDispatch (content sysPrompt model : String)
    (toolCount msgCount memoryWindow : Nat) (sessionMsgs : List ChatMsg) :
    ProcessOutcome :=
  if startsWithSlash content then
    match handleCommand content model toolCount msgCount memoryWindow with
    | some r => ProcessOutcome.canned r
    | none => normalProcessing content sysPrompt sessionMsgs
  else normalProcessing content sysPrompt sessionMsgs

/-! ## Theorems -/

/-- Lookup after removing every pair with the looked-up key finds nothing. -/
theorem lookup_filter_ne {α : Type} (l : List (String × α)) (key : String) :
    (l.filter (fun p => !(p.1 == key))).lookup key = none := by
  induction l with
  | nil => rfl
  | cons a t ih =>
    obtain ⟨k, v⟩ := a
    by_cases h : k = key
    · simp [List.filter_cons, h, ih]
    · have hkk : (key == k) = false := beq_eq_false_iff_ne.mpr (Ne.symm h)
      have hb : (k == key) = false := beq_eq_false_iff_ne.mpr h
      simp [List.filter_cons, hb, List.lookup, hkk, ih]

/-- C3: publishing to a full queue returns false and leaves the queue
unchanged (the message is dropped); publishing to a queue below capacity
appends the message and returns true, for both the inbound and the outbound
queue. -/
theorem bus_publish_full_drop (bus : MessageBus) (mi : InboundMessage)
    (mo : OutboundMessage) :
    (MAX_QUEUE_SIZE ≤ bus.inbound.length → publishInbound bus mi = (false, bus)) ∧
    (bus.inbound.length < MAX_QUEUE_SIZE →
      publishInbound bus mi = (true, { bus with inbound := bus.inbound ++ [mi] })) ∧
    (MAX_QUEUE_SIZE ≤ bus.outbound.length → publishOutbound bus mo = (false, bus)) ∧
    (bus.outbound.length < MAX_QUEUE_SIZE →
      publishOutbound bus mo = (true, { bus with outbound := bus.outbound ++ [mo] })) := by
  refine ⟨fun h => ?_, fun h => ?_, fun h => ?_, fun h => ?_⟩
  · simp [publishInbound, if_pos h]
  · simp [publishInbound, if_neg (Nat.not_le.mpr h)]
  · simp [publishOutbound, if_pos h]
  · simp [publishOutbound, if_neg (Nat.not_le.mpr h)]

/-- Witness for bus_publish_full_drop: a queue holding MAX_QUEUE_SIZE
messages drops the next publish, an empty queue accepts it. -/
theorem bus_publish_full_drop_witness :
    publishInbound ⟨List.replicate 1000 ⟨"cli", "cli:local", "u", "n", "hi"⟩, []⟩
        ⟨"cli", "cli:local", "u", "n", "hi"⟩ =
      (false, ⟨List.replicate 1000 ⟨"cli", "cli:local", "u", "n", "hi"⟩, []⟩) ∧
    publishOutbound ⟨[], []⟩ ⟨"cli", "cli:local", "ok"⟩ =
      (true, ⟨[], [⟨"cli", "cli:local", "ok"⟩]⟩) := by
  constructor
  · exact (bus_publish_full_drop
      ⟨List.replicate 1000 ⟨"cli", "cli:local", "u", "n", "hi"⟩, []⟩
      ⟨"cli", "cli:local", "u", "n", "hi"⟩ ⟨"cli", "cli:local", "ok"⟩).1
      (by rw [List.length_replicate]; exact Nat.le_refl 1000)
  · exact (bus_publish_full_drop ⟨[], []⟩
      ⟨"cli", "cli:local", "u", "n", "hi"⟩ ⟨"cli", "cli:local", "ok"⟩).2.2.2
      (by simp [MAX_QUEUE_SIZE])

/-- C4: saving a session and then getting the same key back, after the cache
entry is dropped so the persisted file is reloaded, reproduces the saved
ordered message sequence, trimmed to the newest MAX_MESSAGES messages when
the session exceeded the cap; the session object returned by save carries the
same messages. -/
theorem session_save_roundtrip (st : ManagerState) (s : Session) (now now2 : Nat) :
    (getOrCreate (dropCacheEntry (saveToManager st s now).2 s.key) s.key now2).1.messages =
      (if s.messages.length ≤ MAX_MESSAGES then s.messages
       else s.messages.drop (s.messages.length - MAX_MESSAGES)) ∧
    (saveToManager st s now).1.messages =
      (getOrCreate (dropCacheEntry (saveToManager st s now).2 s.key) s.key now2).1.messages := by
  have hload : (getOrCreate (dropCacheEntry (saveToManager st s now).2 s.key) s.key now2).1 =
      loadSession s.key (saveSession s now).2 now2 := by
    simp only [getOrCreate, dropCacheEntry, saveToManager, lookup_filter_ne]
    simp [List.lookup]
  by_cases h : s.messages.length ≤ MAX_MESSAGES
  · have hnot : ¬ MAX_MESSAGES < s.messages.length := Nat.not_lt.mpr h
    constructor
    · rw [hload]
      simp [saveSession, loadSession, metadataRec, hnot, h]
    · rw [hload]
      simp [saveToManager, saveSession, loadSession, metadataRec, hnot]
  · have hlt : MAX_MESSAGES < s.messages.length := Nat.lt_of_not_le h
    constructor
    · rw [hload]
      simp [saveSession, loadSession, metadataRec, hlt, h]
    · rw [hload]
      simp [saveToManager, saveSession, loadSession, metadataRec, hlt]

/-- C9: ToolRegistry.execute always returns a text result: an unknown name
yields the descriptive error enumerating the registered names, a missing
required argument yields the uniform ValueError text, an internal tool
failure yields the uniform error text carrying its kind and message, and
otherwise the tool output is returned; no path raises. -/
theorem registry_execute_total_text (tools : List ToolModel) (name : String)
    (args : List (String × String)) :
    (findTool tools name = none ∧
      registryExecute tools name args = unknownToolText name tools) ∨
    (∃ t, findTool tools name = some t ∧
      ((∃ f, f ∈ t.required ∧ (∀ p ∈ args, p.1 ≠ f) ∧
          registryExecute tools name args =
            toolErrorText name "ValueError" ("Missing required parameter: " ++ f)) ∨
       (∃ kind msg, t.run (args.filter (fun p => t.properties.contains p.1)) =
            Except.error (kind, msg) ∧
          registryExecute tools name args = toolErrorText name kind msg) ∨
       (∃ r, t.run (args.filter (fun p => t.properties.contains p.1)) = Except.ok r ∧
          registryExecute tools name args = r))) := by
  cases hf : findTool tools name with
  | none => exact Or.inl ⟨rfl, by simp [registryExecute, hf]⟩
  | some t =>
    refine Or.inr ⟨t, rfl, ?_⟩
    cases h2 : t.required.find? (fun f => !(args.any (fun p => p.1 == f))) with
    | some f =>
      refine Or.inl ⟨f, List.mem_of_find?_eq_some h2, ?_, ?_⟩
      · have hp := List.find?_some h2
        simp only [Bool.not_eq_true'] at hp
        rw [List.any_eq_false] at hp
        intro p hpmem
        have := hp p hpmem
        simpa using this
      · simp [registryExecute, hf, validateParams, h2]
    | none =>
      refine Or.inr ?_
      cases hr : t.run (args.filter (fun p => t.properties.contains p.1)) with
      | error km =>
        refine Or.inl ⟨km.1, km.2, ?_, ?_⟩
        · rfl
        · simp only [registryExecute, hf, validateParams, h2, hr]
      | ok r =>
        refine Or.inr ⟨r, ?_, ?_⟩
        · rfl
        · simp only [registryExecute, hf, validateParams, h2, hr]

/-- Counterexample to the claim that every string outside the one-shot delay
grammar is rejected: the CPython end anchor matches before a trailing
newline, so the delay parser accepts a grammar string followed by one
newline, and the str-pattern digit class is Unicode Nd, so it also accepts
non-ASCII decimal digits such as the Arabic-Indic five (U+0665). -/
theorem parse_delay_newline_counterexample :
    parseDelay ['5', 'm', '\n'] = some 300 ∧ specDelayMatch ['5', 'm', '\n'] = false ∧
    parseDelay [Char.ofNat 1637, 'm'] = some 300 ∧
    specDelayMatch [Char.ofNat 1637, 'm'] = false := by
  refine ⟨?_, ?_, ?_, ?_⟩ <;> decide

/-- C7 (amended): a string of one or more Unicode decimal digits followed by
a unit in m, h, d parses to its decimal value times 60, 3600 or 86400
seconds, also when a single trailing newline follows (the end anchor
tolerates it); every string that is not such a digit string plus unit, even
after removing one trailing newline, is rejected with a ValueError. -/
theorem parse_delay_grammar (ds : List Char) (u : Char) (s : List Char)
    (hds : ds ≠ []) (hdig : ds.all isNdDigit = true)
    (hu : u = 'm' ∨ u = 'h' ∨ u = 'd')
    (hrej : ndDelayGrammar (stripTrailingNewline s) = false) :
    parseDelay (ds ++ [u]) = some (natOfDigits ds * multiplier u) ∧
    parseDelay (ds ++ [u] ++ ['\n']) = some (natOfDigits ds * multiplier u) ∧
    parseDelay s = none := by
  have hnl : u ≠ '\n' := by rcases hu with h | h | h <;> simp [h]
  have hcore : stripTrailingNewline (ds ++ [u]) = ds ++ [u] := by
    unfold stripTrailingNewline
    simp only [List.getLast?_concat]
    simp [hnl]
  have hmatch : delayMatch (ds ++ [u]) = some (natOfDigits ds, u) := by
    unfold delayMatch
    rw [hcore]
    simp only [List.getLast?_concat, List.dropLast_concat]
    rw [if_pos ⟨hu, hds, hdig⟩]
  refine ⟨?_, ?_, ?_⟩
  · unfold parseDelay
    rw [hmatch]
  · have hcore2 : stripTrailingNewline (ds ++ [u] ++ ['\n']) = ds ++ [u] := by
      unfold stripTrailingNewline
      simp only [List.getLast?_concat]
      simp
    have hmatch2 : delayMatch (ds ++ [u] ++ ['\n']) = some (natOfDigits ds, u) := by
      unfold delayMatch
      rw [hcore2]
      simp only [List.getLast?_concat, List.dropLast_concat]
      rw [if_pos ⟨hu, hds, hdig⟩]
    unfold parseDelay
    rw [hmatch2]
  · have hnone : delayMatch s = none := by
      unfold delayMatch
      simp only []
      cases hg : (stripTrailingNewline s).getLast? with
      | none => rfl
      | some u' =>
        have hnot : ¬ ((u' = 'm' ∨ u' = 'h' ∨ u' = 'd') ∧
            (stripTrailingNewline s).dropLast ≠ [] ∧
            (stripTrailingNewline s).dropLast.all isNdDigit = true) := by
          unfold ndDelayGrammar at hrej
          rw [hg] at hrej
          exact of_decide_eq_false hrej
        show (if ((u' = 'm' ∨ u' = 'h' ∨ u' = 'd') ∧
            (stripTrailingNewline s).dropLast ≠ [] ∧
            (stripTrailingNewline s).dropLast.all isNdDigit = true) then
            some (natOfDigits (stripTrailingNewline s).dropLast, u') else none) = none
        exact if_neg hnot
    unfold parseDelay
    rw [hnone]

/-- Witness for parse_delay_grammar at the digit strings 30 (ASCII) and
the Arabic-Indic five, and the rejected string xy. -/
theorem parse_delay_grammar_witness :
    (['3', '0'] : List Char) ≠ [] ∧ (['3', '0'].all isNdDigit) = true ∧
    ndDelayGrammar (stripTrailingNewline ['x', 'y']) = false ∧
    ([Char.ofNat 1637] : List Char) ≠ [] ∧ ([Char.ofNat 1637].all isNdDigit) = true ∧
    (parseDelay (['3', '0'] ++ ['m']) = some (natOfDigits ['3', '0'] * multiplier 'm') ∧
     parseDelay (['3', '0'] ++ ['m'] ++ ['\n']) =
       some (natOfDigits ['3', '0'] * multiplier 'm') ∧
     parseDelay ['x', 'y'] = none) ∧
    parseDelay ([Char.ofNat 1637] ++ ['h']) =
      some (natOfDigits [Char.ofNat 1637] * multiplier 'h') := by
  refine ⟨by decide, by decide, by decide, by decide, by decide, ?_, ?_⟩
  · exact parse_delay_grammar ['3', '0'] 'm' ['x', 'y'] (by decide) (by decide)
      (Or.inl rfl) (by decide)
  · exact (parse_delay_grammar [Char.ofNat 1637] 'h' ['x', 'y'] (by decide) (by decide)
      (Or.inr (Or.inl rfl)) (by decide)).1

/-- Concrete cron state with no jobs and the service running, used to
exhibit the behaviour of create_job on a malformed schedule. -/
def emptyCronState : CronState :=
  { jobs := [], jobsFile := none, timers := [], running := true }

/-- Counterexample to the claim that a malformed schedule is rejected with
no partial state change: create_job on a schedule that is neither a delay
nor a valid cron expression still adds the job to the map, writes the jobs
file, schedules a timer task, and records the literal next_run text
"invalid schedule". -/
theorem create_job_malformed_counterexample :
    ((createJob emptyCronState "abc12345" "remind" "not-a-schedule" "do it" "cli"
        "cli:local" "2026-01-01T00:00:00+00:00" (fun _ => "") none).2.jobs.length = 1) ∧
    ((createJob emptyCronState "abc12345" "remind" "not-a-schedule" "do it" "cli"
        "cli:local" "2026-01-01T00:00:00+00:00" (fun _ => "") none).2.jobsFile ≠ none) ∧
    ((createJob emptyCronState "abc12345" "remind" "not-a-schedule" "do it" "cli"
        "cli:local" "2026-01-01T00:00:00+00:00" (fun _ => "") none).2.timers.length = 1) ∧
    ((createJob emptyCronState "abc12345" "remind" "not-a-schedule" "do it" "cli"
        "cli:local" "2026-01-01T00:00:00+00:00" (fun _ => "") none).1.nextRun =
      "invalid schedule") := by
  refine ⟨?_, ?_, ?_, ?_⟩ <;> decide

/-- C8 (amended): a create_job request whose schedule is neither a delay nor
a valid cron expression is not rejected: the job is created with next_run
set to the literal text "invalid schedule" and marked recurring, it is
appended to the in-memory job map, the jobs file is rewritten with it, and a
recurring timer task is scheduled while the service runs. -/
theorem create_job_malformed_behavior (st : CronState)
    (jobId name schedule message channel channelId createdAtIso : String)
    (delayNextRun : Nat → String)
    (hmal : delayMatch schedule.data = none) (hrun : st.running = true) :
    ((createJob st jobId name schedule message channel channelId createdAtIso
        delayNextRun none).1.nextRun = "invalid schedule") ∧
    ((createJob st jobId name schedule message channel channelId createdAtIso
        delayNextRun none).1.recurring = true) ∧
    ((createJob st jobId name schedule message channel channelId createdAtIso
        delayNextRun none).2.jobs =
      st.jobs ++ [(jobId, (createJob st jobId name schedule message channel channelId
        createdAtIso delayNextRun none).1)]) ∧
    ((createJob st jobId name schedule message channel channelId createdAtIso
        delayNextRun none).2.jobsFile =
      some ((st.jobs ++ [(jobId, (createJob st jobId name schedule message channel
        channelId createdAtIso delayNextRun none).1)]).map (fun p => p.2))) ∧
    ((createJob st jobId name schedule message channel channelId createdAtIso
        delayNextRun none).2.timers = st.timers ++ [(jobId, TimerKind.cronLoop)]) := by
  refine ⟨?_, ?_, ?_, ?_, ?_⟩ <;>
    simp [createJob, scheduleJob, saveJobs, hmal, hrun]

/-- Witness for create_job_malformed_behavior on a concrete malformed
schedule with the service running. -/
theorem create_job_malformed_behavior_witness :
    delayMatch ("xyz" : String).data = none ∧ emptyCronState.running = true ∧
    ((createJob emptyCronState "id1" "n" "xyz" "m" "cli" "cli:local" "t0"
        (fun _ => "") none).1.nextRun = "invalid schedule") := by
  refine ⟨by decide, rfl, ?_⟩
  exact (create_job_malformed_behavior emptyCronState "id1" "n" "xyz" "m" "cli"
    "cli:local" "t0" (fun _ => "") (by decide) rfl).1

/-- Counterexample to the claim that a successful consolidation always adds
exactly one event-log entry: with model output lacking the section markers
no file operation is attempted, the run completes without an exception, the
oldest half is trimmed, but the event log is left unchanged. -/
theorem consolidation_eventlog_counterexample :
    ((consolidateMemory 2 [userMsg "a", userMsg "b"] (some "no markers here")
        true true true "[2026-02-03 04:05]" "" []).1 = [userMsg "b"]) ∧
    (((consolidateMemory 2 [userMsg "a", userMsg "b"] (some "no markers here")
        true true true "[2026-02-03 04:05]" "" []).2.2).length ≠ 1) := by
  refine ⟨?_, ?_⟩ <;> decide

/-- C5 (amended): for a session of 2n messages with window 2n and n
positive, a successful consolidation call — the model call returns and no
file operation of the try block raises — removes exactly the oldest n
messages, whatever the model output contains (with a marker missing no such
operation is even attempted); the event log gains exactly one timestamped
entry when the output carries both section markers and a nonempty history
section, and is unchanged otherwise. -/
theorem consolidation_trim_eventlog (n : Nat) (msgs : List ChatMsg)
    (content timestamp memory : String) (eventLog : List String)
    (hn : 0 < n) (hlen : msgs.length = 2 * n) :
    ((consolidateMemory (2 * n) msgs (some content) true true true timestamp memory
        eventLog).1 = msgs.drop n) ∧
    ((consolidateMemory (2 * n) msgs (some content) true true true timestamp memory
        eventLog).1.length = n) ∧
    ((bothMarkers content && !(historyEntryOf content == "")) = true →
      (consolidateMemory (2 * n) msgs (some content) true true true timestamp memory
        eventLog).2.2 =
        eventLog ++ ["\n" ++ timestamp ++ " " ++ historyEntryOf content ++ "\n"]) ∧
    ((bothMarkers content && !(historyEntryOf content == "")) = false →
      (consolidateMemory (2 * n) msgs (some content) true true true timestamp memory
        eventLog).2.2 = eventLog) := by
  have hcut : 2 * n / 2 = n := Nat.mul_div_cancel_left n (by norm_num)
  have htake : (msgs.take n).isEmpty = false := by
    rw [List.isEmpty_eq_false]
    intro hempty
    have := congrArg List.length hempty
    rw [List.length_take, hlen] at this
    simp at this
    omega
  have hdroplen : (msgs.drop n).length = n := by
    rw [List.length_drop, hlen]
    omega
  have hred : consolidateMemory (2 * n) msgs (some content) true true true timestamp
      memory eventLog =
      if bothMarkers content then
        (msgs.drop n,
         (if memoryUpdateOf content = "" then memory
          else if memory = "" then memoryUpdateOf content
          else strStrip (memory ++ "\n\n" ++ memoryUpdateOf content)),
         (if historyEntryOf content = "" then eventLog
          else eventLog ++ ["\n" ++ timestamp ++ " " ++ historyEntryOf content ++ "\n"]))
      else (msgs.drop n, memory, eventLog) := by
    simp only [consolidateMemory]
    rw [hcut, htake]
    simp only [Bool.false_eq_true, if_false]
    by_cases hb : bothMarkers content = true
    · rw [if_pos hb, if_pos hb]
      rw [if_neg (by simp), if_neg (by simp), if_neg (by simp)]
    · rw [if_neg hb, if_neg hb]
  refine ⟨?_, ?_, ?_, ?_⟩
  · rw [hred]
    by_cases hb : bothMarkers content = true
    · rw [if_pos hb]
    · rw [if_neg hb]
  · rw [hred]
    by_cases hb : bothMarkers content = true
    · rw [if_pos hb]
      exact hdroplen
    · rw [if_neg hb]
      exact hdroplen
  · intro hcond
    rw [Bool.and_eq_true] at hcond
    have hb : bothMarkers content = true := hcond.1
    have hh : ¬ historyEntryOf content = "" := by
      have h2 := hcond.2
      rw [Bool.not_eq_true'] at h2
      exact beq_eq_false_iff_ne.mp h2
    rw [hred, if_pos hb]
    show (if historyEntryOf content = "" then eventLog
      else eventLog ++ ["\n" ++ timestamp ++ " " ++ historyEntryOf content ++ "\n"]) =
      eventLog ++ ["\n" ++ timestamp ++ " " ++ historyEntryOf content ++ "\n"]
    rw [if_neg hh]
  · intro hcond
    rw [hred]
    rw [Bool.and_eq_false_iff] at hcond
    cases hcond with
    | inl hb =>
      rw [if_neg (by rw [hb]; exact Bool.false_ne_true)]
    | inr hh =>
      have hh2 : historyEntryOf content = "" := by simpa using hh
      by_cases hb : bothMarkers content = true
      · rw [if_pos hb]
        show (if historyEntryOf content = "" then eventLog
          else eventLog ++ ["\n" ++ timestamp ++ " " ++ historyEntryOf content ++ "\n"]) =
          eventLog
        rw [if_pos hh2]
      · rw [if_neg hb]

/-- Witness for consolidation_trim_eventlog: a two-message session with
window 2, a marker-bearing model output and all file operations succeeding
trims one message and appends one event-log entry. -/
theorem consolidation_trim_eventlog_witness :
    0 < 1 ∧ ([userMsg "a", userMsg "b"] : List ChatMsg).length = 2 * 1 ∧
    ((consolidateMemory (2 * 1) [userMsg "a", userMsg "b"]
        (some "---MEMORY_UPDATE---facts---HISTORY_ENTRY---summary")
        true true true "[2026-02-03 04:05]" "" []).1 = [userMsg "b"]) ∧
    ((bothMarkers "---MEMORY_UPDATE---facts---HISTORY_ENTRY---summary" &&
        !(historyEntryOf "---MEMORY_UPDATE---facts---HISTORY_ENTRY---summary" == "")) =
        true →
      (consolidateMemory (2 * 1) [userMsg "a", userMsg "b"]
          (some "---MEMORY_UPDATE---facts---HISTORY_ENTRY---summary")
          true true true "[2026-02-03 04:05]" "" []).2.2 =
        [] ++ ["\n" ++ "[2026-02-03 04:05]" ++ " " ++
          historyEntryOf "---MEMORY_UPDATE---facts---HISTORY_ENTRY---summary" ++ "\n"]) := by
  refine ⟨by decide, by decide, ?_, ?_⟩
  · exact (consolidation_trim_eventlog 1 [userMsg "a", userMsg "b"]
      "---MEMORY_UPDATE---facts---HISTORY_ENTRY---summary" "[2026-02-03 04:05]" "" []
      (by decide) (by decide)).1
  · exact (consolidation_trim_eventlog 1 [userMsg "a", userMsg "b"]
      "---MEMORY_UPDATE---facts---HISTORY_ENTRY---summary" "[2026-02-03 04:05]" "" []
      (by decide) (by decide)).2.2.1

/-- A failing HISTORY.md append aborts the block after the memory write:
the session stays untrimmed and the event log unchanged although the model
call returned marker-bearing output and the long-term memory was already
updated. -/
theorem consolidation_io_failure_untrimmed :
    ((consolidateMemory 2 [userMsg "a", userMsg "b"]
        (some "---MEMORY_UPDATE---facts---HISTORY_ENTRY---summary")
        true true false "[2026-02-03 04:05]" "" []).1 = [userMsg "a", userMsg "b"]) ∧
    ((consolidateMemory 2 [userMsg "a", userMsg "b"]
        (some "---MEMORY_UPDATE---facts---HISTORY_ENTRY---summary")
        true true false "[2026-02-03 04:05]" "" []).2.2 = []) ∧
    ((consolidateMemory 2 [userMsg "a", userMsg "b"]
        (some "---MEMORY_UPDATE---facts---HISTORY_ENTRY---summary")
        true true false "[2026-02-03 04:05]" "" []).2.1 = "facts") := by
  refine ⟨?_, ?_, ?_⟩ <;> decide

/-- The ReAct worker always makes at least one chat call when fuel remains. -/
theorem reactAux_calls_pos (provider : Nat → LLMResponse) (execF : ToolCallRequest → String)
    (maxIterations fuel iter : Nat) (msgs sess : List ChatMsg) (hf : 0 < fuel) :
    0 < (reactAux provider execF maxIterations fuel iter msgs sess).calls := by
  cases fuel with
  | zero => exact absurd hf (by simp)
  | succ f =>
    by_cases h : (provider iter).toolCalls.isEmpty = true
    · simp only [reactAux, if_pos h]
      exact Nat.zero_lt_one
    · simp only [reactAux, if_neg h]
      exact Nat.succ_pos _

/-- Characterisation of the ReAct worker: either the fuel runs out with every
consulted response carrying tool calls and the fallback text is returned, or
the first response without tool calls terminates the loop with its content
after exactly one more call. -/
theorem reactAux_spec (provider : Nat → LLMResponse) (execF : ToolCallRequest → String)
    (maxIterations : Nat) :
    ∀ (fuel iter : Nat) (msgs sess : List ChatMsg),
      ((reactAux provider execF maxIterations fuel iter msgs sess).calls = fuel ∧
       (reactAux provider execF maxIterations fuel iter msgs sess).result = stillWorkingText ∧
       ∀ j, j < fuel → (provider (iter + j)).toolCalls ≠ []) ∨
      (∃ k, k < fuel ∧ (∀ j, j < k → (provider (iter + j)).toolCalls ≠ []) ∧
        (provider (iter + k)).toolCalls = [] ∧
        (reactAux provider execF maxIterations fuel iter msgs sess).result =
          (provider (iter + k)).content ∧
        (reactAux provider execF maxIterations fuel iter msgs sess).calls = k + 1) := by
  intro fuel
  induction fuel with
  | zero =>
    intro iter msgs sess
    exact Or.inl ⟨rfl, rfl, fun j hj => absurd hj (Nat.not_lt_zero j)⟩
  | succ fuel ih =>
    intro iter msgs sess
    by_cases h : (provider iter).toolCalls.isEmpty = true
    · have hnil : (provider iter).toolCalls = [] := List.isEmpty_iff.mp h
      refine Or.inr ⟨0, Nat.succ_pos fuel, fun j hj => absurd hj (Nat.not_lt_zero j),
        ?_, ?_, ?_⟩
      · simpa using hnil
      · simp only [reactAux, if_pos h]
        rfl
      · simp only [reactAux, if_pos h]
    · have hne : (provider iter).toolCalls ≠ [] := by
        intro hnil
        exact h (by simp [hnil])
      rcases ih (iter + 1)
          (msgs ++ [assistantToolMsg (provider iter).content
              ((provider iter).toolCalls.map toolCallData)] ++
            (provider iter).toolCalls.map (fun tc => toolResultMsg tc.id tc.name (execF tc)) ++
            (if iter < maxIterations - 1 then [reflectMsg] else []))
          (sess ++ [assistantToolMsg (provider iter).content
              ((provider iter).toolCalls.map toolCallData)] ++
            (provider iter).toolCalls.map (fun tc => toolResultMsg tc.id tc.name (execF tc)))
        with ⟨hc, hr, hall⟩ | ⟨k, hk, hall, hknil, hr, hc⟩
      · refine Or.inl ⟨?_, ?_, ?_⟩
        · simp only [reactAux, if_neg h]
          rw [hc]
        · simp only [reactAux, if_neg h]
          rw [hr]
        · intro j hj
          cases j with
          | zero => simpa using hne
          | succ j =>
            have := hall j (by omega)
            have harith : iter + 1 + j = iter + (j + 1) := by omega
            rw [harith] at this
            exact this
      · refine Or.inr ⟨k + 1, by omega, ?_, ?_, ?_, ?_⟩
        · intro j hj
          cases j with
          | zero => simpa using hne
          | succ j =>
            have := hall j (by omega)
            have harith : iter + 1 + j = iter + (j + 1) := by omega
            rw [harith] at this
            exact this
        · have harith : iter + 1 + k = iter + (k + 1) := by omega
          rw [harith] at hknil
          exact hknil
        · simp only [reactAux, if_neg h]
          rw [hr]
          have harith : iter + 1 + k = iter + (k + 1) := by omega
          rw [harith]
        · simp only [reactAux, if_neg h]
          rw [hc]

/-- The assistant tool-call message is never the reflection prompt. -/
theorem assistantToolMsg_ne_reflect (c : String) (tcs : List ToolCallData) :
    (assistantToolMsg c tcs == reflectMsg) = false := by
  rw [beq_eq_false_iff_ne]
  intro hcontra
  have := congrArg ChatMsg.role hcontra
  simp [assistantToolMsg, reflectMsg, userMsg] at this

/-- A tool result message is never the reflection prompt. -/
theorem toolResultMsg_ne_reflect (a b c : String) :
    (toolResultMsg a b c == reflectMsg) = false := by
  rw [beq_eq_false_iff_ne]
  intro hcontra
  have := congrArg ChatMsg.role hcontra
  simp [toolResultMsg, reflectMsg, userMsg] at this

/-- The final plain-text assistant message is never the reflection prompt. -/
theorem assistantFinalMsg_ne_reflect (c : String) :
    (assistantFinalMsg c == reflectMsg) = false := by
  rw [beq_eq_false_iff_ne]
  intro hcontra
  have := congrArg ChatMsg.role hcontra
  simp [assistantFinalMsg, reflectMsg, userMsg] at this

/-- Frame lemma for the ReAct worker: the model-facing list grows by a block
of appended messages, the session grows by the same block with the
reflection prompts removed plus at most one final plain-text assistant
message, and the number of reflection prompts in the block is one less than
the number of chat calls. -/
theorem reactAux_frame (provider : Nat → LLMResponse) (execF : ToolCallRequest → String)
    (maxIterations : Nat) :
    ∀ (fuel iter : Nat) (msgs sess : List ChatMsg), fuel + iter = maxIterations →
      ∃ added final,
        (reactAux provider execF maxIterations fuel iter msgs sess).messages =
          msgs ++ added ∧
        (reactAux provider execF maxIterations fuel iter msgs sess).session =
          sess ++ added.filter (fun m => !(m == reflectMsg)) ++ final ∧
        added.count reflectMsg =
          (reactAux provider execF maxIterations fuel iter msgs sess).calls - 1 ∧
        ((final = [] ∧
          (reactAux provider execF maxIterations fuel iter msgs sess).result =
            stillWorkingText) ∨
         ∃ c, final = [assistantFinalMsg c]) := by
  intro fuel
  induction fuel with
  | zero =>
    intro iter msgs sess hM
    refine ⟨[], [], by simp [reactAux], by simp [reactAux], by simp [reactAux], ?_⟩
    exact Or.inl ⟨rfl, rfl⟩
  | succ fuel ih =>
    intro iter msgs sess hM
    by_cases h : (provider iter).toolCalls.isEmpty = true
    · refine ⟨[], [assistantFinalMsg (provider iter).content], ?_, ?_, ?_, ?_⟩
      · simp only [reactAux, if_pos h]
        simp
      · simp only [reactAux, if_pos h]
        simp
      · simp only [reactAux, if_pos h]
        simp
      · exact Or.inr ⟨(provider iter).content, rfl⟩
    · have hM' : fuel + (iter + 1) = maxIterations := by omega
      rcases ih (iter + 1)
          (msgs ++ [assistantToolMsg (provider iter).content
              ((provider iter).toolCalls.map toolCallData)] ++
            (provider iter).toolCalls.map (fun tc => toolResultMsg tc.id tc.name (execF tc)) ++
            (if iter < maxIterations - 1 then [reflectMsg] else []))
          (sess ++ [assistantToolMsg (provider iter).content
              ((provider iter).toolCalls.map toolCallData)] ++
            (provider iter).toolCalls.map (fun tc => toolResultMsg tc.id tc.name (execF tc)))
          hM' with ⟨added', final', h1, h2, h3, h4⟩
      refine ⟨[assistantToolMsg (provider iter).content
          ((provider iter).toolCalls.map toolCallData)] ++
        (provider iter).toolCalls.map (fun tc => toolResultMsg tc.id tc.name (execF tc)) ++
        (if iter < maxIterations - 1 then [reflectMsg] else []) ++ added',
        final', ?_, ?_, ?_, ?_⟩
      · simp only [reactAux, if_neg h]
        rw [h1]
        simp [List.append_assoc]
      · simp only [reactAux, if_neg h]
        rw [h2]
        have hfilter :
            (([assistantToolMsg (provider iter).content
                ((provider iter).toolCalls.map toolCallData)] ++
              (provider iter).toolCalls.map
                (fun tc => toolResultMsg tc.id tc.name (execF tc)) ++
              (if iter < maxIterations - 1 then [reflectMsg] else []) ++
              added').filter (fun m => !(m == reflectMsg))) =
            [assistantToolMsg (provider iter).content
                ((provider iter).toolCalls.map toolCallData)] ++
              (provider iter).toolCalls.map
                (fun tc => toolResultMsg tc.id tc.name (execF tc)) ++
              added'.filter (fun m => !(m == reflectMsg)) := by
          rw [List.filter_append, List.filter_append, List.filter_append]
          have hf1 : ([assistantToolMsg (provider iter).content
              ((provider iter).toolCalls.map toolCallData)].filter
                (fun m => !(m == reflectMsg))) =
              [assistantToolMsg (provider iter).content
                ((provider iter).toolCalls.map toolCallData)] := by
            rw [List.filter_eq_self]
            intro a ha
            rw [List.mem_singleton] at ha
            rw [ha]
            simp [assistantToolMsg_ne_reflect]
          have hf2 : (((provider iter).toolCalls.map
              (fun tc => toolResultMsg tc.id tc.name (execF tc))).filter
                (fun m => !(m == reflectMsg))) =
              (provider iter).toolCalls.map
                (fun tc => toolResultMsg tc.id tc.name (execF tc)) := by
            rw [List.filter_eq_self]
            intro a ha
            rw [List.mem_map] at ha
            rcases ha with ⟨tc, _, rfl⟩
            simp [toolResultMsg_ne_reflect]
          have hf3 : ((if iter < maxIterations - 1 then [reflectMsg] else
              ([] : List ChatMsg)).filter (fun m => !(m == reflectMsg))) = [] := by
            by_cases hi : iter < maxIterations - 1
            · rw [if_pos hi]
              simp
            · rw [if_neg hi]
              rfl
          rw [hf1, hf2, hf3]
          simp
        rw [hfilter]
        simp [List.append_assoc]
      · simp only [reactAux, if_neg h]
        rw [List.count_append, List.count_append, List.count_append]
        have hc1 : ([assistantToolMsg (provider iter).content
            ((provider iter).toolCalls.map toolCallData)].count reflectMsg) = 0 := by
          rw [List.count_eq_zero]
          intro hmem
          rw [List.mem_singleton] at hmem
          have := assistantToolMsg_ne_reflect (provider iter).content
            ((provider iter).toolCalls.map toolCallData)
          rw [beq_eq_false_iff_ne] at this
          exact this hmem.symm
        have hc2 : (((provider iter).toolCalls.map
            (fun tc => toolResultMsg tc.id tc.name (execF tc))).count reflectMsg) = 0 := by
          rw [List.count_eq_zero]
          intro hmem
          rw [List.mem_map] at hmem
          rcases hmem with ⟨tc, _, heq⟩
          have := toolResultMsg_ne_reflect tc.id tc.name (execF tc)
          rw [beq_eq_false_iff_ne] at this
          exact this heq
        rw [hc1, hc2, h3]
        cases fuel with
        | zero =>
          have hi : ¬ iter < maxIterations - 1 := by omega
          rw [if_neg hi]
          simp [reactAux]
        | succ f =>
          have hi : iter < maxIterations - 1 := by omega
          rw [if_pos hi]
          have hpos := reactAux_calls_pos provider execF maxIterations (f + 1) (iter + 1)
            (msgs ++ [assistantToolMsg (provider iter).content
                ((provider iter).toolCalls.map toolCallData)] ++
              (provider iter).toolCalls.map
                (fun tc => toolResultMsg tc.id tc.name (execF tc)) ++
              [reflectMsg])
            (sess ++ [assistantToolMsg (provider iter).content
                ((provider iter).toolCalls.map toolCallData)] ++
              (provider iter).toolCalls.map
                (fun tc => toolResultMsg tc.id tc.name (execF tc)))
            (Nat.succ_pos f)
          simp only [List.count_cons_self, List.count_nil]
          omega
      · simp only [reactAux, if_neg h]
        exact h4

/-- C1: the ReAct loop makes at most max_tool_iterations chat calls per
inbound message, and terminates either at the first response carrying no
tool calls, returning its text after exactly one more call than the number of
tool-call rounds, or at the iteration cap, returning the fixed still-working
fallback text after every response carried tool calls. -/
theorem react_loop_iteration_bound (provider : Nat → LLMResponse)
    (execF : ToolCallRequest → String) (maxIterations : Nat) (msgs sess : List ChatMsg) :
    (reactLoop provider execF maxIterations msgs sess).calls ≤ maxIterations ∧
    ((∃ k, k < maxIterations ∧ (∀ j, j < k → (provider j).toolCalls ≠ []) ∧
        (provider k).toolCalls = [] ∧
        (reactLoop provider execF maxIterations msgs sess).result = (provider k).content ∧
        (reactLoop provider execF maxIterations msgs sess).calls = k + 1) ∨
     ((reactLoop provider execF maxIterations msgs sess).calls = maxIterations ∧
      (reactLoop provider execF maxIterations msgs sess).result = stillWorkingText ∧
      ∀ j, j < maxIterations → (provider j).toolCalls ≠ [])) := by
  simp only [reactLoop]
  rcases reactAux_spec provider execF maxIterations maxIterations 0 msgs sess with
    ⟨hc, hr, hall⟩ | ⟨k, hk, hall, hnil, hr, hc⟩
  · refine ⟨le_of_eq hc, Or.inr ⟨hc, hr, ?_⟩⟩
    intro j hj
    have := hall j hj
    rw [Nat.zero_add] at this
    exact this
  · refine ⟨?_, Or.inl ⟨k, hk, ?_, ?_, ?_, hc⟩⟩
    · rw [hc]
      omega
    · intro j hj
      have := hall j hj
      rw [Nat.zero_add] at this
      exact this
    · rw [Nat.zero_add] at hnil
      exact hnil
    · rw [Nat.zero_add] at hr
      exact hr

/-- Provider oracle that answers with plain text straight away. -/
def replyProvider : Nat → LLMResponse := fun _ => ⟨"hi", []⟩

/-- Provider oracle that requests one tool call, then answers. -/
def toolThenReply : Nat → LLMResponse :=
  fun i => if i = 0 then ⟨"", [⟨"call1", "read_file", "path"⟩]⟩ else ⟨"done", []⟩

/-- Registry dispatch oracle returning a fixed result text. -/
def fixedExec : ToolCallRequest → String := fun _ => "result"

/-- Counterexample to the claim that the persisted transcript differs from
the model-facing list only by the system prompt and the reflection prompts:
when the model answers in plain text, the final assistant message is
recorded only in the session, so the model-facing list with the system
prompt and reflection prompts removed is not the persisted list. -/
theorem reflection_difference_counterexample :
    ¬ ((reactLoop replyProvider fixedExec 3 [systemMsg "sp", userMsg "q"]
        [userMsg "q"]).messages.filter
          (fun m => !(m.role == "system") && !(m == reflectMsg)) =
      (reactLoop replyProvider fixedExec 3 [systemMsg "sp", userMsg "q"]
        [userMsg "q"]).session) := by
  decide

/-- C6 (amended): starting from a session free of the reflection prompt,
the loop persists no reflection prompt; the model-facing list gains exactly
one reflection prompt per chat call except the last (calls minus one in
total, one for every tool-call round before termination); and the persisted
transcript is the model-facing additions with the reflection prompts
removed, plus the final plain-text assistant message which is appended to
the session only. -/
theorem reflection_prompt_handling (provider : Nat → LLMResponse)
    (execF : ToolCallRequest → String) (maxIterations : Nat)
    (sysPrompt : String) (sess : List ChatMsg) (hs : reflectMsg ∉ sess) :
    (reactLoop provider execF maxIterations (systemMsg sysPrompt :: sess)
        sess).session.count reflectMsg = 0 ∧
    (reactLoop provider execF maxIterations (systemMsg sysPrompt :: sess)
        sess).messages.count reflectMsg =
      (reactLoop provider execF maxIterations (systemMsg sysPrompt :: sess)
        sess).calls - 1 ∧
    ∃ added final,
      (reactLoop provider execF maxIterations (systemMsg sysPrompt :: sess)
          sess).messages = (systemMsg sysPrompt :: sess) ++ added ∧
      (reactLoop provider execF maxIterations (systemMsg sysPrompt :: sess)
          sess).session =
        sess ++ added.filter (fun m => !(m == reflectMsg)) ++ final ∧
      (final = [] ∨ ∃ c, final = [assistantFinalMsg c]) := by
  simp only [reactLoop]
  rcases reactAux_frame provider execF maxIterations maxIterations 0
      (systemMsg sysPrompt :: sess) sess rfl with ⟨added, final, h1, h2, h3, h4⟩
  have hsys : (systemMsg sysPrompt == reflectMsg) = false := by
    rw [beq_eq_false_iff_ne]
    intro hcontra
    have := congrArg ChatMsg.role hcontra
    simp [systemMsg, reflectMsg, userMsg] at this
  have hsess : sess.count reflectMsg = 0 := List.count_eq_zero.mpr hs
  have hfinal : final.count reflectMsg = 0 := by
    rcases h4 with ⟨hf, _⟩ | ⟨c, hf⟩
    · rw [hf]
      rfl
    · rw [hf, List.count_eq_zero]
      intro hmem
      rw [List.mem_singleton] at hmem
      have := assistantFinalMsg_ne_reflect c
      rw [beq_eq_false_iff_ne] at this
      exact this hmem.symm
  have hfilterzero : (added.filter (fun m => !(m == reflectMsg))).count reflectMsg = 0 := by
    rw [List.count_eq_zero]
    intro hmem
    have := (List.mem_filter.mp hmem).2
    simp at this
  refine ⟨?_, ?_, added, final, h1, h2, ?_⟩
  · rw [h2, List.count_append, List.count_append, hsess, hfilterzero, hfinal]
  · rw [h1, List.count_append, h3]
    have : (systemMsg sysPrompt :: sess).count reflectMsg = 0 := by
      rw [List.count_eq_zero]
      intro hmem
      rcases List.mem_cons.mp hmem with hh | hh
      · have := hsys
        rw [beq_eq_false_iff_ne] at this
        exact this hh.symm
      · exact hs hh
    rw [this, Nat.zero_add]
  · rcases h4 with ⟨hf, _⟩ | hf
    · exact Or.inl hf
    · exact Or.inr hf

/-- Witness for reflection_prompt_handling on a one-tool-call run: the
starting session holds no reflection prompt and the conclusion follows. -/
theorem reflection_prompt_handling_witness :
    reflectMsg ∉ ([userMsg "hello"] : List ChatMsg) ∧
    ((reactLoop toolThenReply fixedExec 3 (systemMsg "sp" :: [userMsg "hello"])
        [userMsg "hello"]).session.count reflectMsg = 0 ∧
     (reactLoop toolThenReply fixedExec 3 (systemMsg "sp" :: [userMsg "hello"])
        [userMsg "hello"]).messages.count reflectMsg =
       (reactLoop toolThenReply fixedExec 3 (systemMsg "sp" :: [userMsg "hello"])
        [userMsg "hello"]).calls - 1 ∧
     ∃ added final,
       (reactLoop toolThenReply fixedExec 3 (systemMsg "sp" :: [userMsg "hello"])
          [userMsg "hello"]).messages = (systemMsg "sp" :: [userMsg "hello"]) ++ added ∧
       (reactLoop toolThenReply fixedExec 3 (systemMsg "sp" :: [userMsg "hello"])
          [userMsg "hello"]).session =
         [userMsg "hello"] ++ added.filter (fun m => !(m == reflectMsg)) ++ final ∧
       (final = [] ∨ ∃ c, final = [assistantFinalMsg c])) := by
  refine ⟨by decide, ?_⟩
  exact reflection_prompt_handling toolThenReply fixedExec 3 "sp" [userMsg "hello"]
    (by decide)

/-- Every tool list the subagent worker hands to the model is exactly its
restricted list, and every executed tool name passed the restriction
filter. -/
theorem subagentStep_restricted (provider : Nat → Except String LLMResponse)
    (execF : ToolCallRequest → String) (restricted : List ToolSchema) :
    ∀ (fuel iter : Nat) (messages : List ChatMsg),
      (∀ o ∈ (subagentStep provider execF restricted fuel iter messages).chats,
        ∀ ts, o = some ts → ts = restricted) ∧
      (∀ n ∈ (subagentStep provider execF restricted fuel iter messages).executed,
        restrictedNames.contains n = false) := by
  intro fuel
  induction fuel with
  | zero =>
    intro iter messages
    exact ⟨fun o ho => absurd ho (by simp [subagentStep]),
      fun n hn => absurd hn (by simp [subagentStep])⟩
  | succ fuel ih =>
    intro iter messages
    cases hp : provider iter with
    | error e =>
      refine ⟨?_, ?_⟩
      · intro o ho ts hts
        simp only [subagentStep, hp] at ho
        rw [List.mem_singleton] at ho
        subst ho
        by_cases hres : restricted.isEmpty = true
        · rw [if_pos hres] at hts
          exact absurd hts (by simp)
        · rw [if_neg hres] at hts
          exact (Option.some_inj.mp hts).symm
      · intro n hn
        simp only [subagentStep, hp] at hn
        exact absurd hn (by simp)
    | ok response =>
      by_cases hempty : response.toolCalls.isEmpty = true
      · refine ⟨?_, ?_⟩
        · intro o ho ts hts
          simp only [subagentStep, hp, if_pos hempty] at ho
          rw [List.mem_singleton] at ho
          subst ho
          by_cases hres : restricted.isEmpty = true
          · rw [if_pos hres] at hts
            exact absurd hts (by simp)
          · rw [if_neg hres] at hts
            exact (Option.some_inj.mp hts).symm
        · intro n hn
          simp only [subagentStep, hp, if_pos hempty] at hn
          exact absurd hn (by simp)
      · by_cases hkept : (response.toolCalls.filter
            (fun tc => !(restrictedNames.contains tc.name))).isEmpty = true
        · refine ⟨?_, ?_⟩
          · intro o ho ts hts
            simp only [subagentStep, hp, if_neg hempty, if_pos hkept] at ho
            rw [List.mem_singleton] at ho
            subst ho
            by_cases hres : restricted.isEmpty = true
            · rw [if_pos hres] at hts
              exact absurd hts (by simp)
            · rw [if_neg hres] at hts
              exact (Option.some_inj.mp hts).symm
          · intro n hn
            simp only [subagentStep, hp, if_neg hempty, if_pos hkept] at hn
            exact absurd hn (by simp)
        · refine ⟨?_, ?_⟩
          · intro o ho ts hts
            simp only [subagentStep, hp, if_neg hempty, if_neg hkept] at ho
            rw [List.mem_cons] at ho
            cases ho with
            | inl ho =>
              subst ho
              by_cases hres : restricted.isEmpty = true
              · rw [if_pos hres] at hts
                exact absurd hts (by simp)
              · rw [if_neg hres] at hts
                exact (Option.some_inj.mp hts).symm
            | inr ho =>
              exact (ih (iter + 1) _).1 o ho ts hts
          · intro n hn
            simp only [subagentStep, hp, if_neg hempty, if_neg hkept] at hn
            rw [List.mem_append] at hn
            cases hn with
            | inl hn =>
              rw [List.mem_map] at hn
              rcases hn with ⟨tc, htc, rfl⟩
              have := (List.mem_filter.mp htc).2
              rw [Bool.not_eq_true'] at this
              exact this
            | inr hn =>
              exact (ih (iter + 1) _).2 n hn

/-- C2: in every subagent run, the tool-schema list passed to the model on
any chat call never contains a tool named message or spawn, and no executed
tool call is named message or spawn, whatever the model requests. -/
theorem subagent_restricted_tools (provider : Nat → Except String LLMResponse)
    (execF : ToolCallRequest → String) (allSchemas : List ToolSchema)
    (task context : String) (maxIterations : Nat) :
    (∀ o ∈ (subagentRun provider execF allSchemas task context maxIterations).chats,
      ∀ ts, o = some ts → ∀ sch ∈ ts,
        sch.function.name ≠ "message" ∧ sch.function.name ≠ "spawn") ∧
    (∀ n ∈ (subagentRun provider execF allSchemas task context maxIterations).executed,
      n ≠ "message" ∧ n ≠ "spawn") := by
  have hmain := subagentStep_restricted provider execF
    (allSchemas.filter (fun s => !(restrictedNames.contains s.function.name)))
  constructor
  · intro o ho ts hts sch hsch
    have hts' := (hmain maxIterations 0 [systemMsg subagentSystemPrompt,
      userMsg ("Task: " ++ task ++
        (if context = "" then "" else "\n\nAdditional context: " ++ context))]).1 o ho ts hts
    rw [hts'] at hsch
    have := (List.mem_filter.mp hsch).2
    rw [Bool.not_eq_true'] at this
    simp only [restrictedNames] at this
    constructor
    · intro hc
      rw [hc] at this
      exact absurd this (by decide)
    · intro hc
      rw [hc] at this
      exact absurd this (by decide)
  · intro n hn
    have := (hmain maxIterations 0 [systemMsg subagentSystemPrompt,
      userMsg ("Task: " ++ task ++
        (if context = "" then "" else "\n\nAdditional context: " ++ context))]).2 n hn
    simp only [restrictedNames] at this
    constructor
    · intro hc
      rw [hc] at this
      exact absurd this (by decide)
    · intro hc
      rw [hc] at this
      exact absurd this (by decide)

/-- C10: a message whose text starts with a slash but whose stripped,
lowercased form is none of the four command tokens gets no canned response
and is processed exactly like a non-command message: the user message is
appended to the session and the model-facing list is built from it; and any
text whose stripped, lowercased form is one of the four tokens is
recognised, making recognition case-insensitive and tolerant of surrounding
whitespace. -/
theorem unknown_command_falls_through (content sysPrompt model : String)
    (toolCount msgCount memoryWindow : Nat) (sess : List ChatMsg)
    (hslash : startsWithSlash content = true)
    (hunknown : commandToken content ∉ knownCommands) :
    handleCommand content model toolCount msgCount memoryWindow = none ∧
    processDispatch content sysPrompt model toolCount msgCount memoryWindow sess =
      normalProcessing content sysPrompt sess ∧
    processDispatch content sysPrompt model toolCount msgCount memoryWindow sess =
      ProcessOutcome.normal (sess ++ [userMsg content])
        (systemMsg sysPrompt :: (sess ++ [userMsg content])) ∧
    (∀ c2 : String, startsWithSlash c2 = false →
      processDispatch c2 sysPrompt model toolCount msgCount memoryWindow sess =
        normalProcessing c2 sysPrompt sess) ∧
    (∀ c3 : String, commandToken c3 ∈ knownCommands →
      (handleCommand c3 model toolCount msgCount memoryWindow).isSome = true) := by
  simp only [knownCommands, List.mem_cons, List.not_mem_nil, or_false] at hunknown
  push_neg at hunknown
  obtain ⟨h1, h2, h3, h4⟩ := hunknown
  have hnone : handleCommand content model toolCount msgCount memoryWindow = none := by
    simp only [handleCommand]
    rw [if_neg h1, if_neg h2, if_neg h3, if_neg h4]
  refine ⟨hnone, ?_, ?_, ?_, ?_⟩
  · simp only [processDispatch, hslash, if_pos, hnone]
  · simp only [processDispatch, hslash, if_pos, hnone, normalProcessing]
  · intro c2 hc2
    simp only [processDispatch, hc2, Bool.false_eq_true, if_false]
  · intro c3 hc3
    simp only [knownCommands, List.mem_cons, List.not_mem_nil, or_false] at hc3
    rcases hc3 with hc | hc | hc | hc <;>
      simp [handleCommand, hc]

/-- Witness for unknown_command_falls_through: an unrecognised slash command
with mixed case and trailing whitespace falls through to normal
processing. -/
theorem unknown_command_falls_through_witness :
    startsWithSlash "/FooBar  " = true ∧
    commandToken "/FooBar  " ∉ knownCommands ∧
    (handleCommand "/FooBar  " "gpt" 3 4 40 = none ∧
     processDispatch "/FooBar  " "sp" "gpt" 3 4 40 [userMsg "x"] =
       normalProcessing "/FooBar  " "sp" [userMsg "x"] ∧
     processDispatch "/FooBar  " "sp" "gpt" 3 4 40 [userMsg "x"] =
       ProcessOutcome.normal ([userMsg "x"] ++ [userMsg "/FooBar  "])
         (systemMsg "sp" :: ([userMsg "x"] ++ [userMsg "/FooBar  "])) ∧
     (∀ c2 : String, startsWithSlash c2 = false →
       processDispatch c2 "sp" "gpt" 3 4 40 [userMsg "x"] =
         normalProcessing c2 "sp" [userMsg "x"]) ∧
     (∀ c3 : String, commandToken c3 ∈ knownCommands →
       (handleCommand c3 "gpt" 3 4 40).isSome = true)) := by
  refine ⟨by decide, by decide, ?_⟩
  exact unknown_command_falls_through "/FooBar  " "sp" "gpt" 3 4 40 [userMsg "x"]
    (by decide) (by decide)

end Joshbot
